import Mathlib

/-!
Verification of the Interview Coach document-extraction core.

This file shallowly embeds the parsing, personalization and session
state-machine logic of `api/index.py` into Lean 4 and proves the
specification's claims about it.  Strings are modelled as `List Char`;
`str` converts a Lean string literal to that representation.  Python's
`str.lower` is modelled by `Char.toLower` (ASCII case folding, which agrees
with Python on the ASCII header vocabularies and documents considered
here), `str.strip` by `pyStrip`, `str.split` by `List.splitOn`, and the
substring test `in` by `isSubOf`.
-/

def str (s : String) : List Char := s.data

/-- Model of Python `str.strip()`: drop whitespace from both ends. -/
def pyStrip (s : List Char) : List Char :=
  ((s.dropWhile Char.isWhitespace).reverse.dropWhile Char.isWhitespace).reverse

/-- Model of Python `a in b` substring containment on strings. -/
def isSubOf (pat s : List Char) : Bool :=
  s.tails.any (fun t => pat.isPrefixOf t)

/-- Model of `re.sub` removing every colon, hyphen, en dash and em dash. -/
def stripPunct (s : List Char) : List Char :=
  s.filter (fun c => !(c == ':' || c == '-' || c == '–' || c == '—'))

/-- The cleaned form of a line used by `_is_section_header`:
`re.sub(..., '', line.lower()).strip()`. -/
def cleanLine (line : List Char) : List Char :=
  pyStrip (stripPunct (line.map Char.toLower))

/-- Embedding of `_is_section_header(line, headers)` from `api/index.py`. -/
def is_section_header (line : List Char) (headers : List (List Char)) : Bool :=
  let lc := cleanLine line
  if lc.length > 50 then false
  else headers.any (fun h =>
    lc == h || (h ++ [' ']).isPrefixOf lc ||
      (isSubOf h lc && decide (lc.length < h.length + 15)))

def skill_headers : List (List Char) :=
  [str "skills", str "technical skills", str "core competencies",
   str "competencies", str "expertise"]

def exp_headers : List (List Char) :=
  [str "experience", str "work experience", str "professional experience",
   str "employment", str "work history"]

def edu_headers : List (List Char) :=
  [str "education", str "academic background", str "qualifications",
   str "degrees"]

def summary_headers : List (List Char) :=
  [str "summary", str "professional summary", str "profile",
   str "objective", str "about"]

def req_headers : List (List Char) :=
  [str "requirements", str "required", str "must have", str "essential"]

def resp_headers : List (List Char) :=
  [str "responsibilities", str "duties", str "what you will do",
   str "role", str "job duties"]

def qual_headers : List (List Char) :=
  [str "qualifications", str "preferred", str "nice to have",
   str "desired", str "skills"]

def about_headers : List (List Char) :=
  [str "about", str "about the company", str "company",
   str "who we are", str "overview"]

/-- The named sections a resume line can be attributed to. -/
inductive RSection
  | skills
  | experience
  | education
  | summary
deriving DecidableEq, Repr

/-- Result record of `parse_resume`. -/
structure ParsedResume where
  raw_text : List Char
  skills : List (List Char)
  experience : List (List Char)
  education : List (List Char)
  summary : List Char
deriving DecidableEq, Repr

/-- The separator class of `re.split` inside `_save_section`:
comma, the bullet glyphs, and pipe. -/
def isSkillSep (c : Char) : Bool :=
  c == ',' || c == '•' || c == '·' || c == '|'

/-- One iteration of the inner skill loop of `_save_section`: trim the
fragment and keep it when longer than one character. -/
def skillAdd (acc : List (List Char)) (sk : List Char) : List (List Char) :=
  if (pyStrip sk).length > 1 then acc ++ [pyStrip sk] else acc

/-- Processing of one skills content line: split it on the separator
class and fold the fragments into the accumulator. -/
def skillFoldLine (acc : List (List Char)) (line : List Char) : List (List Char) :=
  (line.splitOnP isSkillSep).foldl skillAdd acc

/-- The skill fragments extracted from the content lines of one skills
section, in order. -/
def extractSkills (content : List (List Char)) : List (List Char) :=
  content.foldl skillFoldLine []

/-- Embedding of `_save_section(parsed, section, content)`: the skills
branch appends to the already collected skills, the other branches
overwrite their field. -/
def save_section (parsed : ParsedResume) (s : RSection)
    (content : List (List Char)) : ParsedResume :=
  match s with
  | .skills => { parsed with skills := content.foldl skillFoldLine parsed.skills }
  | .experience => { parsed with experience := content }
  | .education => { parsed with education := content }
  | .summary => { parsed with summary := List.intercalate (str " ") content }

/-- The header dispatch of the `parse_resume` loop: the four vocabularies
are tried in the fixed order skills, experience, education, summary. -/
def resumeFindHeader (line : List Char) : Option RSection :=
  if is_section_header line skill_headers then some .skills
  else if is_section_header line exp_headers then some .experience
  else if is_section_header line edu_headers then some .education
  else if is_section_header line summary_headers then some .summary
  else none

/-- Loop state of `parse_resume`: current section, accumulated content
lines, and the record built so far. -/
structure RState where
  cur : Option RSection
  content : List (List Char)
  parsed : ParsedResume
deriving DecidableEq, Repr

/-- The guarded flush `if current_section and section_content: _save_section`. -/
def rFlush (parsed : ParsedResume) (cur : Option RSection)
    (content : List (List Char)) : ParsedResume :=
  match cur with
  | some s => if content = [] then parsed else save_section parsed s content
  | none => parsed

/-- One iteration of the `parse_resume` line loop. -/
def rStep (st : RState) (line : List Char) : RState :=
  match resumeFindHeader line with
  | some s => ⟨some s, [], rFlush st.parsed st.cur st.content⟩
  | none =>
      if pyStrip line = [] then st
      else ⟨st.cur, st.content ++ [pyStrip line], st.parsed⟩

/-- `parse_resume` up to (but excluding) the unstructured-text fallback:
segmentation of the stripped text plus the final flush. -/
def resumeSegmented (resume_text : List Char) : ParsedResume :=
  let parsed0 : ParsedResume := ⟨resume_text, [], [], [], []⟩
  let lines := (pyStrip resume_text).splitOn '\n'
  let st := lines.foldl rStep ⟨none, [], parsed0⟩
  rFlush st.parsed st.cur st.content

/-- Embedding of `parse_resume(resume_text)` from `api/index.py`. -/
def parse_resume (resume_text : List Char) : ParsedResume :=
  if resume_text = [] then ⟨resume_text, [], [], [], []⟩
  else
    let parsed := resumeSegmented resume_text
    if parsed.summary = [] ∧ parsed.experience = [] then
      { parsed with summary := resume_text.take 1000 }
    else parsed

/-- The named sections a job-description line can be attributed to. -/
inductive JSection
  | requirements
  | responsibilities
  | qualifications
  | company_info
deriving DecidableEq, Repr

/-- Result record of `parse_job_description`. -/
structure ParsedJobDescription where
  raw_text : List Char
  title : List Char
  requirements : List (List Char)
  responsibilities : List (List Char)
  qualifications : List (List Char)
  company_info : List Char
deriving DecidableEq, Repr

/-- Embedding of `_save_jd_section(parsed, section, content)`. -/
def save_jd_section (parsed : ParsedJobDescription) (s : JSection)
    (content : List (List Char)) : ParsedJobDescription :=
  match s with
  | .requirements => { parsed with requirements := content }
  | .responsibilities => { parsed with responsibilities := content }
  | .qualifications => { parsed with qualifications := content }
  | .company_info => { parsed with company_info := List.intercalate (str " ") content }

/-- The header dispatch of the `parse_job_description` loop: the four
vocabularies are tried in the fixed order requirements, responsibilities,
qualifications, about. -/
def jdFindHeader (line : List Char) : Option JSection :=
  if is_section_header line req_headers then some .requirements
  else if is_section_header line resp_headers then some .responsibilities
  else if is_section_header line qual_headers then some .qualifications
  else if is_section_header line about_headers then some .company_info
  else none

/-- Loop state of `parse_job_description`: current section, accumulated
content lines, record built so far and the `title_candidates_checked`
counter. -/
structure JDState where
  cur : Option JSection
  content : List (List Char)
  parsed : ParsedJobDescription
  checked : Nat
deriving DecidableEq, Repr

/-- The guarded flush of the job-description loop. -/
def jdFlush (parsed : ParsedJobDescription) (cur : Option JSection)
    (content : List (List Char)) : ParsedJobDescription :=
  match cur with
  | some s => if content = [] then parsed else save_jd_section parsed s content
  | none => parsed

/-- One iteration of the `parse_job_description` line loop, including the
pre-section title capture. -/
def jdStep (st : JDState) (line : List Char) : JDState :=
  match jdFindHeader line with
  | some s => ⟨some s, [], jdFlush st.parsed st.cur st.content, st.checked⟩
  | none =>
      if pyStrip line = [] then st
      else if st.parsed.title = [] ∧ st.cur = none ∧ st.checked < 3 then
        ⟨st.cur, st.content, { st.parsed with title := pyStrip line }, st.checked + 1⟩
      else ⟨st.cur, st.content ++ [pyStrip line], st.parsed, st.checked⟩

/-- Embedding of `parse_job_description(jd_text)` from `api/index.py`. -/
def parse_job_description (jd_text : List Char) : ParsedJobDescription :=
  if jd_text = [] then ⟨jd_text, [], [], [], [], []⟩
  else
    let parsed0 : ParsedJobDescription := ⟨jd_text, [], [], [], [], []⟩
    let lines := (pyStrip jd_text).splitOn '\n'
    let st := lines.foldl jdStep ⟨none, [], parsed0, 0⟩
    jdFlush st.parsed st.cur st.content

/-- The line list `parse_job_description` walks (empty when the input text
is empty, because of the early return). -/
def jdLinesOf (jd_text : List Char) : List (List Char) :=
  if jd_text = [] then [] else (pyStrip jd_text).splitOn '\n'

/-- The title a header-free job description ends with: the stripped first
non-blank line, or the empty string when there is none. -/
def titleOf (jd_text : List Char) : List Char :=
  match (jdLinesOf jd_text).find? (fun l => !(pyStrip l).isEmpty) with
  | some l => pyStrip l
  | none => []

/-- Embedding of the question text built for a long experience entry. -/
def expQuestion (e : List Char) : List Char :=
  str "Tell me more about your experience with: " ++ e.take 100 ++ str "..."

/-- Embedding of the question text built for a requirement some skill matches. -/
def reqQuestionMatched (req : List Char) : List Char :=
  str "You mentioned relevant experience. Can you elaborate on: " ++ req

/-- Embedding of the question text built for an unmatched requirement. -/
def reqQuestionUnmatched (req : List Char) : List Char :=
  str "This role requires: " ++ req ++ str ". How would you approach this?"

/-- Embedding of the question text built for a responsibility entry. -/
def respQuestion (resp : List Char) : List Char :=
  str "How would you handle: " ++ resp

/-- Embedding of the gap-analysis question listing the first
qualifications. -/
def qualQuestion (quals : List (List Char)) : List Char :=
  str "What makes you qualified for this role given the requirements: "
    ++ List.intercalate (str ", ") (quals.take 3) ++ str "?"

/-- The experience entries of an optionally present parsed resume
(`session.get('parsed_resume') or {}` followed by `.get('experience')`). -/
def expOf (r : Option ParsedResume) : List (List Char) :=
  match r with
  | some p => p.experience
  | none => []

/-- The lowercased skill strings of an optionally present parsed resume
(the `set(s.lower() for s in ...)` built by the personalization engine;
only membership is ever used, so a list models the set faithfully). -/
def skillsLowerOf (r : Option ParsedResume) : List (List Char) :=
  match r with
  | some p => p.skills.map (List.map Char.toLower)
  | none => []

/-- The requirements of an optionally present parsed job description. -/
def reqsOf (j : Option ParsedJobDescription) : List (List Char) :=
  match j with
  | some p => p.requirements
  | none => []

/-- The responsibilities of an optionally present parsed job description. -/
def respsOf (j : Option ParsedJobDescription) : List (List Char) :=
  match j with
  | some p => p.responsibilities
  | none => []

/-- The qualifications of an optionally present parsed job description. -/
def qualsOf (j : Option ParsedJobDescription) : List (List Char) :=
  match j with
  | some p => p.qualifications
  | none => []

/-- The full question list `generate_personalized_questions` accumulates
before its final empty check, mirroring the successive `questions.append`
loops of the source. -/
def gpqList (r : Option ParsedResume) (j : Option ParsedJobDescription) :
    List (List Char) :=
  let questions : List (List Char) := []
  let questions := ((expOf r).take 3).foldl (fun qs e =>
    if e.length > 20 then qs ++ [expQuestion e] else qs) questions
  let questions := ((reqsOf j).take 5).foldl (fun qs req =>
    if (skillsLowerOf r).any (fun sk => isSubOf sk (req.map Char.toLower)) then
      qs ++ [reqQuestionMatched req]
    else qs ++ [reqQuestionUnmatched req]) questions
  let questions := ((respsOf j).take 3).foldl (fun qs resp =>
    qs ++ [respQuestion resp]) questions
  if qualsOf j = [] then questions else questions ++ [qualQuestion (qualsOf j)]

/-- Embedding of `generate_personalized_questions`:
`return questions if questions else None`. -/
def generate_personalized_questions (r : Option ParsedResume)
    (j : Option ParsedJobDescription) : Option (List (List Char)) :=
  if gpqList r j = [] then none else some (gpqList r j)

/-- The six stored rehearsal steps, in training order. -/
def trainingSteps : List String :=
  ["identify_principle", "create_anchors", "guided_recall",
   "delivery_practice", "compression", "random_entry"]

/-- Embedding of the `/api/confirm` handler's effect on the stored
`current_step`: returns the new stored step together with the step string
reported to the caller.  An unknown stored value is treated as index 0. -/
def confirmUpdate (cur : String) : String × String :=
  let idx := (trainingSteps.findIdx? (fun s => s == cur)).getD 0
  if idx < trainingSteps.length - 1 then
    (trainingSteps.getD (idx + 1) cur, trainingSteps.getD (idx + 1) cur)
  else (cur, "complete")

/-- Iterated confirmation: the stored step after `n` confirm events. -/
def confirmIterate : Nat → String → String
  | 0, s => s
  | n + 1, s => confirmIterate n (confirmUpdate s).1

/-- Embedding of the reset performed by `/api/question` and
`/api/personalized-question`: the stored step becomes
`identify_principle` regardless of its previous value. -/
def resetForNewQuestion (_ : String) : String := "identify_principle"

/-- Modelled from the spec: the claim's wording of the header test, whose
substring clause requires the cleaned line's length "not to exceed" the
vocabulary entry's length + 15, i.e. a non-strict bound. -/
def claimIsHeader (line : List Char) (headers : List (List Char)) : Bool :=
  decide ((cleanLine line).length ≤ 50) && headers.any (fun h =>
    cleanLine line == h || (h ++ [' ']).isPrefixOf (cleanLine line) ||
      (isSubOf h (cleanLine line) && decide ((cleanLine line).length ≤ h.length + 15)))

/-- Modelled from the spec as amended: identical to `claimIsHeader` except
that the substring clause bounds the cleaned line's length strictly below
the vocabulary entry's length + 15, as the source does. -/
def claimIsHeaderStrict (line : List Char) (headers : List (List Char)) : Bool :=
  decide ((cleanLine line).length ≤ 50) && headers.any (fun h =>
    cleanLine line == h || (h ++ [' ']).isPrefixOf (cleanLine line) ||
      (isSubOf h (cleanLine line) && decide ((cleanLine line).length < h.length + 15)))

/-- The earliest group, in the given priority order, whose vocabulary
classifies the line as a header. -/
def firstMatching {σ : Type} (groups : List (σ × List (List Char)))
    (line : List Char) : Option σ :=
  (groups.find? (fun g => is_section_header line g.2)).map Prod.fst

/-- The resume header groups in the priority order the source checks them. -/
def resumeGroups : List (RSection × List (List Char)) :=
  [(.skills, skill_headers), (.experience, exp_headers),
   (.education, edu_headers), (.summary, summary_headers)]

/-- The job-description header groups in the priority order the source
checks them. -/
def jdGroups : List (JSection × List (List Char)) :=
  [(.requirements, req_headers), (.responsibilities, resp_headers),
   (.qualifications, qual_headers), (.company_info, about_headers)]

/-- The experience questions: one per entry among the first three
experience entries whose length exceeds 20 characters. -/
def expQs (r : Option ParsedResume) : List (List Char) :=
  (((expOf r).take 3).filter (fun e => decide (e.length > 20))).map expQuestion

/-- Whether some lowercased resume skill occurs as a substring of the
lowercased requirement. -/
def reqMatches (r : Option ParsedResume) (req : List Char) : Bool :=
  (skillsLowerOf r).any (fun sk => isSubOf sk (req.map Char.toLower))

/-- The requirement questions: one per entry among the first five
requirements, phrased by whether a skill matches. -/
def reqQs (r : Option ParsedResume) (j : Option ParsedJobDescription) :
    List (List Char) :=
  ((reqsOf j).take 5).map (fun req =>
    if reqMatches r req then reqQuestionMatched req else reqQuestionUnmatched req)

/-- The responsibility questions: one per entry among the first three
responsibilities. -/
def respQs (j : Option ParsedJobDescription) : List (List Char) :=
  ((respsOf j).take 3).map respQuestion

/-- The gap-analysis questions: one summary question when qualifications
exist, none otherwise. -/
def qualQs (j : Option ParsedJobDescription) : List (List Char) :=
  if qualsOf j = [] then [] else [qualQuestion (qualsOf j)]

theorem foldl_shift {α β : Type} (g : List β → α → List β)
    (hg : ∀ (a b : List β) (x : α), g (a ++ b) x = a ++ g b x) :
    ∀ (l : List α) (a b : List β), l.foldl g (a ++ b) = a ++ l.foldl g b := by
  intro l
  induction l with
  | nil => intro a b; rfl
  | cons x xs ih => intro a b; simp only [List.foldl_cons, hg, ih]

theorem foldl_shift_nil {α β : Type} (g : List β → α → List β)
    (hg : ∀ (a b : List β) (x : α), g (a ++ b) x = a ++ g b x)
    (l : List α) (a : List β) : l.foldl g a = a ++ l.foldl g [] := by
  have h := foldl_shift g hg l a []
  rwa [List.append_nil] at h

theorem foldl_snoc {α β : Type} (f : α → β) :
    ∀ (l : List α) (a : List β),
      l.foldl (fun qs x => qs ++ [f x]) a = a ++ l.map f := by
  intro l
  induction l with
  | nil => intro a; simp
  | cons x xs ih => intro a; simp [List.foldl_cons, ih]

theorem foldl_ite_snoc {α β : Type} (p : α → Prop) [DecidablePred p] (f : α → β) :
    ∀ (l : List α) (a : List β),
      l.foldl (fun qs x => if p x then qs ++ [f x] else qs) a
        = a ++ (l.filter (fun x => decide (p x))).map f := by
  intro l
  induction l with
  | nil => intro a; simp
  | cons x xs ih =>
    intro a
    by_cases hp : p x <;> simp [List.foldl_cons, List.filter_cons, hp, ih]

theorem skillAdd_shift (a b : List (List Char)) (sk : List Char) :
    skillAdd (a ++ b) sk = a ++ skillAdd b sk := by
  unfold skillAdd
  split <;> simp [List.append_assoc]

theorem skillFoldLine_shift (a b : List (List Char)) (line : List Char) :
    skillFoldLine (a ++ b) line = a ++ skillFoldLine b line := by
  unfold skillFoldLine
  exact foldl_shift skillAdd (fun a b x => skillAdd_shift a b x) _ a b

theorem save_section_skills (p : ParsedResume) (c : List (List Char)) :
    save_section p .skills c = { p with skills := p.skills ++ extractSkills c } := by
  unfold save_section extractSkills
  have h := foldl_shift_nil skillFoldLine
    (fun a b x => skillFoldLine_shift a b x) c p.skills
  rw [h]

theorem ws_toLower {c : Char} (h : c.isWhitespace = true) : c.toLower = c := by
  simp only [Char.isWhitespace, Bool.or_eq_true, decide_eq_true_eq] at h
  rcases h with ((h | h) | h) | h <;> subst h <;> decide

theorem ws_map_toLower : ∀ (l : List Char), (∀ c ∈ l, c.isWhitespace = true) →
    l.map Char.toLower = l := by
  intro l
  induction l with
  | nil => intro _; rfl
  | cons c t ih =>
    intro h
    simp only [List.map_cons, ws_toLower (h c (by simp)),
      ih (fun x hx => h x (by simp [hx]))]

theorem ws_stripPunct : ∀ (l : List Char), (∀ c ∈ l, c.isWhitespace = true) →
    stripPunct l = l := by
  intro l hl
  unfold stripPunct
  rw [List.filter_eq_self]
  intro c hc
  have h := hl c hc
  simp only [Char.isWhitespace, Bool.or_eq_true, decide_eq_true_eq] at h
  rcases h with ((h | h) | h) | h <;> subst h <;> decide

theorem strip_nil_all_ws {l : List Char} (h : pyStrip l = []) :
    ∀ c ∈ l, c.isWhitespace = true := by
  unfold pyStrip at h
  rw [List.reverse_eq_nil_iff, List.dropWhile_eq_nil_iff] at h
  intro c hc
  rcases List.mem_append.mp
      ((List.takeWhile_append_dropWhile (p := Char.isWhitespace) (l := l)) ▸ hc) with
    hmem | hmem
  · exact List.mem_takeWhile_imp hmem
  · exact h c (List.mem_reverse.mpr hmem)

theorem cleanLine_blank {l : List Char} (h : pyStrip l = []) : cleanLine l = [] := by
  have hws := strip_nil_all_ws h
  unfold cleanLine
  rw [ws_map_toLower l hws, ws_stripPunct l hws, h]

theorem header_false_of_clean_nil {line : List Char} {headers : List (List Char)}
    (hc : cleanLine line = []) (hne : ∀ h ∈ headers, h ≠ []) :
    is_section_header line headers = false := by
  unfold is_section_header
  rw [hc]
  simp only [List.length_nil, gt_iff_lt, Nat.lt_irrefl, if_neg (by omega : ¬(0 > 50)),
    List.any_eq_false]
  intro h hmem
  obtain ⟨c, t, rfl⟩ := List.exists_cons_of_ne_nil (hne h hmem)
  simp [isSubOf, List.isPrefixOf, List.tails]

theorem rStep_header {st : RState} {l : List Char} {s : RSection}
    (hf : resumeFindHeader l = some s) :
    rStep st l = ⟨some s, [], rFlush st.parsed st.cur st.content⟩ := by
  unfold rStep
  simp only [hf]

theorem rStep_blank {st : RState} {l : List Char}
    (hf : resumeFindHeader l = none) (hb : pyStrip l = []) :
    rStep st l = st := by
  unfold rStep
  simp only [hf, if_pos hb]

theorem rStep_append {st : RState} {l : List Char}
    (hf : resumeFindHeader l = none) (hb : pyStrip l ≠ []) :
    rStep st l = ⟨st.cur, st.content ++ [pyStrip l], st.parsed⟩ := by
  unfold rStep
  simp only [hf, if_neg hb]

theorem jdStep_header {st : JDState} {l : List Char} {s : JSection}
    (hf : jdFindHeader l = some s) :
    jdStep st l = ⟨some s, [], jdFlush st.parsed st.cur st.content, st.checked⟩ := by
  unfold jdStep
  simp only [hf]

theorem jdStep_blankline {st : JDState} {l : List Char}
    (hf : jdFindHeader l = none) (hb : pyStrip l = []) :
    jdStep st l = st := by
  unfold jdStep
  simp only [hf, if_pos hb]

theorem jdStep_title {st : JDState} {l : List Char}
    (hf : jdFindHeader l = none) (hb : pyStrip l ≠ [])
    (hcond : st.parsed.title = [] ∧ st.cur = none ∧ st.checked < 3) :
    jdStep st l = ⟨st.cur, st.content, { st.parsed with title := pyStrip l },
      st.checked + 1⟩ := by
  unfold jdStep
  simp only [hf, if_neg hb, if_pos hcond]

theorem jdStep_append {st : JDState} {l : List Char}
    (hf : jdFindHeader l = none) (hb : pyStrip l ≠ [])
    (hcond : ¬(st.parsed.title = [] ∧ st.cur = none ∧ st.checked < 3)) :
    jdStep st l = ⟨st.cur, st.content ++ [pyStrip l], st.parsed, st.checked⟩ := by
  unfold jdStep
  simp only [hf, if_neg hb, if_neg hcond]

theorem jdFindHeader_blank {l : List Char} (h : pyStrip l = []) :
    jdFindHeader l = none := by
  have hc := cleanLine_blank h
  unfold jdFindHeader
  rw [header_false_of_clean_nil hc (by decide),
    header_false_of_clean_nil hc (by decide),
    header_false_of_clean_nil hc (by decide),
    header_false_of_clean_nil hc (by decide)]
  rfl

theorem jdStep_blank (st : JDState) {l : List Char} (h : pyStrip l = []) :
    jdStep st l = st :=
  jdStep_blankline (jdFindHeader_blank h) h

theorem jd_foldl_blank : ∀ (ls : List (List Char)) (st : JDState),
    (∀ l ∈ ls, pyStrip l = []) → ls.foldl jdStep st = st := by
  intro ls
  induction ls with
  | nil => intro st _; rfl
  | cons l t ih =>
    intro st h
    rw [List.foldl_cons, jdStep_blank st (h l (by simp))]
    exact ih st (fun x hx => h x (by simp [hx]))

theorem save_jd_title (p : ParsedJobDescription) (s : JSection)
    (c : List (List Char)) : (save_jd_section p s c).title = p.title := by
  cases s <;> rfl

theorem jdFlush_title (p : ParsedJobDescription) (cur : Option JSection)
    (c : List (List Char)) : (jdFlush p cur c).title = p.title := by
  unfold jdFlush
  cases cur with
  | none => rfl
  | some s =>
    by_cases hc : c = [] <;> simp [hc, save_jd_title]

theorem jdStep_title_stable (st : JDState) (l : List Char)
    (ht : st.parsed.title ≠ []) :
    (jdStep st l).parsed.title = st.parsed.title := by
  rcases hf : jdFindHeader l with _ | s
  · by_cases hb : pyStrip l = []
    · rw [jdStep_blankline hf hb]
    · have hcond : ¬(st.parsed.title = [] ∧ st.cur = none ∧ st.checked < 3) := by
        intro hcontra; exact ht hcontra.1
      rw [jdStep_append hf hb hcond]
  · rw [jdStep_header hf]
    exact jdFlush_title st.parsed st.cur st.content

theorem jd_foldl_title_stable : ∀ (ls : List (List Char)) (st : JDState),
    st.parsed.title ≠ [] →
    ((ls.foldl jdStep st).parsed).title = st.parsed.title := by
  intro ls
  induction ls with
  | nil => intro st _; rfl
  | cons l t ih =>
    intro st ht
    rw [List.foldl_cons]
    have heq := jdStep_title_stable st l ht
    have hne : (jdStep st l).parsed.title ≠ [] := by rw [heq]; exact ht
    rw [ih (jdStep st l) hne, heq]

theorem jd_foldl_insection : ∀ (ls : List (List Char)) (st : JDState),
    st.cur ≠ none → st.parsed.title = [] →
    (ls.foldl jdStep st).cur ≠ none ∧ ((ls.foldl jdStep st).parsed).title = [] := by
  intro ls
  induction ls with
  | nil => intro st h1 h2; exact ⟨h1, h2⟩
  | cons l t ih =>
    intro st h1 h2
    rw [List.foldl_cons]
    have hstep : (jdStep st l).cur ≠ none ∧ (jdStep st l).parsed.title = [] := by
      rcases hf : jdFindHeader l with _ | s
      · by_cases hb : pyStrip l = []
        · rw [jdStep_blankline hf hb]; exact ⟨h1, h2⟩
        · have hcond : ¬(st.parsed.title = [] ∧ st.cur = none ∧ st.checked < 3) := by
            intro hcontra; exact h1 hcontra.2.1
          rw [jdStep_append hf hb hcond]
          exact ⟨h1, h2⟩
      · rw [jdStep_header hf]
        exact ⟨by simp, jdFlush_title st.parsed st.cur st.content ▸ h2⟩
    exact ih (jdStep st l) hstep.1 hstep.2

theorem r_foldl_noHeader : ∀ (ls : List (List Char)) (content : List (List Char))
    (parsed : ParsedResume), (∀ l ∈ ls, resumeFindHeader l = none) →
    ∃ c, ls.foldl rStep ⟨none, content, parsed⟩ = ⟨none, c, parsed⟩ := by
  intro ls
  induction ls with
  | nil => intro content parsed _; exact ⟨content, rfl⟩
  | cons l t ih =>
    intro content parsed h
    rw [List.foldl_cons]
    by_cases hb : pyStrip l = []
    · rw [rStep_blank (h l (by simp)) hb]
      exact ih content parsed (fun x hx => h x (by simp [hx]))
    · rw [rStep_append (h l (by simp)) hb]
      exact ih (content ++ [pyStrip l]) parsed (fun x hx => h x (by simp [hx]))

theorem jd_foldl_noHeader_titled : ∀ (ls : List (List Char))
    (content : List (List Char)) (parsed : ParsedJobDescription) (checked : Nat),
    (∀ l ∈ ls, jdFindHeader l = none) → parsed.title ≠ [] →
    ∃ c, ls.foldl jdStep ⟨none, content, parsed, checked⟩ = ⟨none, c, parsed, checked⟩ := by
  intro ls
  induction ls with
  | nil => intro content parsed checked _ _; exact ⟨content, rfl⟩
  | cons l t ih =>
    intro content parsed checked h ht
    rw [List.foldl_cons]
    have hrest : ∀ x ∈ t, jdFindHeader x = none := fun x hx => h x (by simp [hx])
    by_cases hb : pyStrip l = []
    · rw [jdStep_blank _ hb]
      exact ih content parsed checked hrest ht
    · have hcond : ¬((⟨none, content, parsed, checked⟩ : JDState).parsed.title = [] ∧
          (⟨none, content, parsed, checked⟩ : JDState).cur = none ∧
          (⟨none, content, parsed, checked⟩ : JDState).checked < 3) := by
        intro hcontra; exact ht hcontra.1
      rw [jdStep_append (h l (by simp)) hb hcond]
      exact ih (content ++ [pyStrip l]) parsed checked hrest ht

theorem jd_foldl_noHeader_untitled : ∀ (ls : List (List Char))
    (parsed : ParsedJobDescription), (∀ l ∈ ls, jdFindHeader l = none) →
    parsed.title = [] →
    ∃ c ck, ls.foldl jdStep ⟨none, [], parsed, 0⟩ =
      ⟨none, c,
        { parsed with title :=
            match ls.find? (fun l => !(pyStrip l).isEmpty) with
            | some l => pyStrip l
            | none => parsed.title }, ck⟩ := by
  intro ls
  induction ls with
  | nil =>
    intro parsed _ _
    exact ⟨[], 0, rfl⟩
  | cons l t ih =>
    intro parsed h ht
    have hrest : ∀ x ∈ t, jdFindHeader x = none := fun x hx => h x (by simp [hx])
    rw [List.foldl_cons]
    by_cases hb : pyStrip l = []
    · rw [jdStep_blank _ hb]
      have hpred : (!(pyStrip l).isEmpty) = false := by
        simp [hb]
      rw [List.find?_cons, hpred]
      exact ih parsed hrest ht
    · have hcond : (⟨none, [], parsed, 0⟩ : JDState).parsed.title = [] ∧
          (⟨none, [], parsed, 0⟩ : JDState).cur = none ∧
          (⟨none, [], parsed, 0⟩ : JDState).checked < 3 :=
        ⟨ht, rfl, by show (0 : Nat) < 3; omega⟩
      rw [jdStep_title (h l (by simp)) hb hcond]
      have hpred : (!(pyStrip l).isEmpty) = true := by
        simp [List.isEmpty_iff]; exact hb
      rw [List.find?_cons, hpred]
      have htitled : ({ parsed with title := pyStrip l } : ParsedJobDescription).title ≠ [] := hb
      obtain ⟨c, hc⟩ := jd_foldl_noHeader_titled t [] _ 1 hrest htitled
      exact ⟨c, 1, hc⟩

/-- C1 (amended): `is_section_header` returns true exactly when the cleaned
line (colon/dash characters stripped, lowercased, whitespace-trimmed) is at
most 50 characters long and either equals a vocabulary entry, or starts
with an entry followed by a space, or contains an entry as a substring
while the cleaned line's length is strictly less than that entry's length
plus 15; and an empty line never matches any vocabulary whose entries are
all non-empty. -/
theorem C1_header_classifier :
    (∀ (line : List Char) (headers : List (List Char)),
      is_section_header line headers = claimIsHeaderStrict line headers) ∧
    (∀ headers : List (List Char), (∀ h ∈ headers, h ≠ []) →
      is_section_header [] headers = false) := by
  constructor
  · intro line headers
    unfold is_section_header claimIsHeaderStrict
    by_cases h : (cleanLine line).length > 50
    · rw [if_pos h]
      have hle : ¬((cleanLine line).length ≤ 50) := by omega
      simp [hle]
    · rw [if_neg h]
      have hle : (cleanLine line).length ≤ 50 := by omega
      simp [hle]
  · intro headers hne
    exact header_false_of_clean_nil rfl hne

/-- C1 counterexample: on the 21-character line consisting of fifteen
letters a followed by skills, and the vocabulary containing only skills,
the claim's predicate (substring with cleaned length at most entry length
plus 15) holds, yet `is_section_header` returns false, because the source
requires the length to be strictly below entry length plus 15. -/
theorem C1_counterexample :
    claimIsHeader (str "aaaaaaaaaaaaaaaskills") [str "skills"] = true ∧
    is_section_header (str "aaaaaaaaaaaaaaaskills") [str "skills"] = false := by
  constructor <;> decide

theorem C1_witness :
    is_section_header (str "Skills:") skill_headers
        = claimIsHeaderStrict (str "Skills:") skill_headers ∧
    is_section_header [] skill_headers = false :=
  ⟨C1_header_classifier.1 (str "Skills:") skill_headers,
   C1_header_classifier.2 skill_headers (by decide)⟩

/-- C2: header dispatch is first-match-wins over the caller-supplied
priority order (skills, experience, education, summary for resumes;
requirements, responsibilities, qualifications, about for job postings),
so a line satisfying several vocabularies is assigned to the earliest
matching group; a matched header line resets the accumulator to empty and
only ever flushes previously accumulated content, so the header line is
never retained as section content; in particular the line
Skills and Experience starts the skills section of a resume. -/
theorem C2_priority_order :
    (∀ line, resumeFindHeader line = firstMatching resumeGroups line) ∧
    (∀ line, jdFindHeader line = firstMatching jdGroups line) ∧
    (∀ line s (st : RState), resumeFindHeader line = some s →
      rStep st line = ⟨some s, [], rFlush st.parsed st.cur st.content⟩) ∧
    (∀ line s (st : JDState), jdFindHeader line = some s →
      jdStep st line = ⟨some s, [], jdFlush st.parsed st.cur st.content, st.checked⟩) ∧
    (parse_resume (str "Skills and Experience\nPython, SQL")).skills
        = [str "Python", str "SQL"] ∧
    (parse_resume (str "Skills and Experience\nPython, SQL")).experience = [] := by
  refine ⟨?_, ?_, ?_, ?_, by decide, by decide⟩
  · intro line
    unfold resumeFindHeader firstMatching resumeGroups
    cases h1 : is_section_header line skill_headers <;>
      cases h2 : is_section_header line exp_headers <;>
      cases h3 : is_section_header line edu_headers <;>
      cases h4 : is_section_header line summary_headers <;>
      simp [List.find?, h1, h2, h3, h4]
  · intro line
    unfold jdFindHeader firstMatching jdGroups
    cases h1 : is_section_header line req_headers <;>
      cases h2 : is_section_header line resp_headers <;>
      cases h3 : is_section_header line qual_headers <;>
      cases h4 : is_section_header line about_headers <;>
      simp [List.find?, h1, h2, h3, h4]
  · intro line s st hf
    exact rStep_header hf
  · intro line s st hf
    exact jdStep_header hf

theorem C2_witness :
    rStep ⟨none, [], ⟨[], [], [], [], []⟩⟩ (str "Skills and Experience")
      = ⟨some .skills, [],
          rFlush (⟨[], [], [], [], []⟩ : ParsedResume) none []⟩ :=
  C2_priority_order.2.2.1 (str "Skills and Experience") .skills
    ⟨none, [], ⟨[], [], [], [], []⟩⟩ (by decide)

/-- C5: a session whose stored step is random_entry reports complete on a
confirm event while its stored step stays random_entry, any number of
further confirms leave it there still reporting complete, and the
new-question reset re-enters the machine at identify_principle, from which
confirming advances again (to create_anchors). -/
theorem C5_random_entry_terminal :
    confirmUpdate "random_entry" = ("random_entry", "complete") ∧
    (∀ n, confirmIterate n "random_entry" = "random_entry") ∧
    (∀ n, (confirmUpdate (confirmIterate n "random_entry")).2 = "complete") ∧
    (∀ s, resetForNewQuestion s = "identify_principle") ∧
    (∀ s, (confirmUpdate (resetForNewQuestion s)).1 = "create_anchors") := by
  have h1 : confirmUpdate "random_entry" = ("random_entry", "complete") := by decide
  have h2 : ∀ n, confirmIterate n "random_entry" = "random_entry" := by
    intro n
    induction n with
    | zero => rfl
    | succ k ih =>
      show confirmIterate k (confirmUpdate "random_entry").1 = "random_entry"
      rw [h1]
      exact ih
  refine ⟨h1, h2, ?_, fun s => rfl,
    fun s => by show (confirmUpdate "identify_principle").1 = "create_anchors"; decide⟩
  intro n
  rw [h2 n, h1]

theorem gpq_req_fold (r : Option ParsedResume) :
    ∀ (l : List (List Char)) (a : List (List Char)),
      l.foldl (fun qs req =>
        if (skillsLowerOf r).any (fun sk => isSubOf sk (req.map Char.toLower)) then
          qs ++ [reqQuestionMatched req]
        else qs ++ [reqQuestionUnmatched req]) a
      = a ++ l.map (fun req =>
          if reqMatches r req then reqQuestionMatched req else reqQuestionUnmatched req) := by
  intro l
  induction l with
  | nil => intro a; simp
  | cons x xs ih =>
    intro a
    rw [List.foldl_cons, List.map_cons]
    have hm : reqMatches r x
        = (skillsLowerOf r).any (fun sk => isSubOf sk (x.map Char.toLower)) := rfl
    cases hb : (skillsLowerOf r).any (fun sk => isSubOf sk (x.map Char.toLower))
    · simp only [hm, hb, Bool.false_eq_true, if_false]
      rw [ih]
      simp [List.append_assoc]
    · simp only [hm, hb, if_true]
      rw [ih]
      simp [List.append_assoc]

/-- The accumulated question list decomposes into the four rule segments
in order: experience, requirements, responsibilities, qualifications. -/
theorem gpqList_eq (r : Option ParsedResume) (j : Option ParsedJobDescription) :
    gpqList r j = expQs r ++ reqQs r j ++ respQs j ++ qualQs j := by
  simp only [gpqList]
  rw [foldl_ite_snoc (fun (e : List Char) => e.length > 20) expQuestion ((expOf r).take 3) [],
    gpq_req_fold r ((reqsOf j).take 5), foldl_snoc respQuestion ((respsOf j).take 3)]
  by_cases hq : qualsOf j = [] <;>
    simp [hq, qualQs, expQs, reqQs, respQs, List.append_assoc]

/-- C6: for up to the first five requirement entries, in order, the
engine emits the elaborate-on phrasing when some lowercased resume skill
is a substring of the lowercased requirement and the how-would-you-approach
phrasing otherwise, and this requirement segment sits after all experience
questions and before all responsibility questions. -/
theorem C6_requirement_questions :
    ∀ (r : Option ParsedResume) (j : Option ParsedJobDescription),
      gpqList r j =
        expQs r ++
        ((reqsOf j).take 5).map (fun req =>
          if (skillsLowerOf r).any (fun sk => isSubOf sk (req.map Char.toLower)) then
            str "You mentioned relevant experience. Can you elaborate on: " ++ req
          else
            str "This role requires: " ++ req ++ str ". How would you approach this?") ++
        respQs j ++ qualQs j := by
  intro r j
  rw [gpqList_eq]
  rfl

/-- C7: the experience questions are exactly one per entry among the first
three experience entries whose length exceeds 20 characters, in order,
each quoting the entry's first 100 characters; entries beyond the first
three, and short entries, produce no experience question. -/
theorem C7_experience_questions :
    ∀ (r : Option ParsedResume) (j : Option ParsedJobDescription),
      gpqList r j =
        (((expOf r).take 3).filter (fun e => decide (e.length > 20))).map
          (fun e => str "Tell me more about your experience with: "
            ++ e.take 100 ++ str "...") ++
        (reqQs r j ++ respQs j ++ qualQs j) := by
  intro r j
  rw [gpqList_eq]
  simp [expQs, expQuestion, List.append_assoc]

/-- C8: the engine returns absent exactly when no rule produced a
question, never returns an empty list wrapped in some, and in particular
returns absent when neither a parsed resume nor a parsed job description
is present; the embedding is a total function, so no input raises an
error. -/
theorem C8_absent_when_empty :
    ∀ (r : Option ParsedResume) (j : Option ParsedJobDescription),
      (generate_personalized_questions r j = none ↔ gpqList r j = []) ∧
      (gpqList r j ≠ [] →
        generate_personalized_questions r j = some (gpqList r j)) ∧
      generate_personalized_questions none none = none := by
  intro r j
  refine ⟨?_, ?_, by decide⟩
  · unfold generate_personalized_questions
    by_cases h : gpqList r j = [] <;> simp [h]
  · intro h
    unfold generate_personalized_questions
    rw [if_neg h]

theorem C8_witness :
    generate_personalized_questions none
        (some ⟨[], [], [], [str "manage site budgets"], [], []⟩)
      = some (gpqList none (some ⟨[], [], [], [str "manage site budgets"], [], []⟩)) :=
  (C8_absent_when_empty none
    (some ⟨[], [], [], [str "manage site budgets"], [], []⟩)).2.1 (by decide)

theorem resumeSegmented_noHeader (text : List Char)
    (h : ∀ l ∈ (pyStrip text).splitOn '\n', resumeFindHeader l = none) :
    resumeSegmented text = ⟨text, [], [], [], []⟩ := by
  obtain ⟨c, hc⟩ := r_foldl_noHeader ((pyStrip text).splitOn '\n') []
    ⟨text, [], [], [], []⟩ h
  simp only [resumeSegmented]
  rw [hc]
  rfl

/-- C3 (amended): `parse_resume` replaces the segmented summary with the
first 1000 characters of the raw input exactly when both the segmented
summary and the segmented experience are empty, and leaves the segmented
result untouched otherwise; for header-free input the summary is the first
1000 characters of the raw (untrimmed) input: the whole raw input when it
has at most 1000 characters, and exactly 1000 characters otherwise. -/
theorem C3_summary_fallback :
    (∀ text : List Char,
      ((resumeSegmented text).summary = [] ∧ (resumeSegmented text).experience = [] →
        parse_resume text = { resumeSegmented text with summary := text.take 1000 }) ∧
      (¬((resumeSegmented text).summary = [] ∧ (resumeSegmented text).experience = []) →
        parse_resume text = resumeSegmented text)) ∧
    (∀ text : List Char, text ≠ [] →
      (∀ l ∈ (pyStrip text).splitOn '\n', resumeFindHeader l = none) →
      (parse_resume text).summary = text.take 1000 ∧
      (text.length ≤ 1000 → (parse_resume text).summary = text) ∧
      (1000 ≤ text.length → ((parse_resume text).summary).length = 1000)) := by
  constructor
  · intro text
    constructor
    · intro hcond
      by_cases htext : text = []
      · subst htext
        decide
      · simp only [parse_resume, if_neg htext]
        rw [if_pos hcond]
    · intro hcond
      by_cases htext : text = []
      · exfalso
        apply hcond
        subst htext
        constructor <;> decide
      · simp only [parse_resume, if_neg htext]
        rw [if_neg hcond]
  · intro text htext h
    have hseg := resumeSegmented_noHeader text h
    have hres : parse_resume text
        = { resumeSegmented text with summary := text.take 1000 } := by
      simp only [parse_resume, if_neg htext]
      rw [if_pos (by rw [hseg]; exact ⟨rfl, rfl⟩)]
    rw [hres, hseg]
    refine ⟨rfl, fun hle => List.take_of_length_le hle, fun hge => ?_⟩
    simp [List.length_take]
    omega

/-- C3 counterexample: the input consisting of a space followed by hi has
no recognizable section header and fewer than 1000 characters, yet the
fallback summary is the raw input (with its leading space), not the
trimmed input text the claim asserts. -/
theorem C3_counterexample :
    (pyStrip (str " hi")).splitOn '\n' = [str "hi"] ∧
    resumeFindHeader (str "hi") = none ∧
    (str " hi").length ≤ 1000 ∧
    (parse_resume (str " hi")).summary ≠ pyStrip (str " hi") := by
  refine ⟨by decide, by decide, by decide, by decide⟩

theorem C3_witness :
    (parse_resume (str "a plain resume text")).summary = str "a plain resume text" :=
  (C3_summary_fallback.2 (str "a plain resume text") (by decide) (by decide)).2.1
    (by decide)

/-- C4: when the first non-blank line of a job description is not a
section header, it becomes the title (stripped); the step that captures a
title changes neither the accumulator nor any section field, so the title
line reaches no section's content; and when the very first non-blank line
is a section header, the title stays the empty string. -/
theorem C4_title_capture :
    (∀ (text : List Char) (pre : List (List Char)) (l : List Char)
        (post : List (List Char)), text ≠ [] →
      (pyStrip text).splitOn '\n' = pre ++ l :: post →
      (∀ p ∈ pre, pyStrip p = []) → pyStrip l ≠ [] → jdFindHeader l = none →
      (parse_job_description text).title = pyStrip l) ∧
    (∀ (text : List Char) (pre : List (List Char)) (l : List Char)
        (post : List (List Char)) (s : JSection), text ≠ [] →
      (pyStrip text).splitOn '\n' = pre ++ l :: post →
      (∀ p ∈ pre, pyStrip p = []) → jdFindHeader l = some s →
      (parse_job_description text).title = []) ∧
    (∀ (st : JDState) (line : List Char), st.parsed.title = [] → st.cur = none →
      st.checked < 3 → jdFindHeader line = none → pyStrip line ≠ [] →
      jdStep st line
        = ⟨st.cur, st.content, { st.parsed with title := pyStrip line },
            st.checked + 1⟩) := by
  refine ⟨?_, ?_, fun st line h1 h2 h3 hf hb => jdStep_title hf hb ⟨h1, h2, h3⟩⟩
  · intro text pre l post htext hlines hpre hl hf
    simp only [parse_job_description, if_neg htext]
    rw [hlines, List.foldl_append, jd_foldl_blank pre _ hpre, List.foldl_cons,
      jdStep_title hf hl ⟨rfl, rfl, by show (0 : Nat) < 3; omega⟩]
    rw [jdFlush_title]
    exact jd_foldl_title_stable post _ hl
  · intro text pre l post s htext hlines hpre hf
    simp only [parse_job_description, if_neg htext]
    rw [hlines, List.foldl_append, jd_foldl_blank pre _ hpre, List.foldl_cons,
      jdStep_header hf]
    rw [jdFlush_title]
    exact (jd_foldl_insection post _ (by simp) rfl).2

theorem C4_witness :
    (parse_job_description (str "Senior CRA\nRequirements\nGCP knowledge")).title
      = pyStrip (str "Senior CRA") :=
  C4_title_capture.1 (str "Senior CRA\nRequirements\nGCP knowledge") []
    (str "Senior CRA") [str "Requirements", str "GCP knowledge"]
    (by decide) (by decide) (by decide) (by decide) (by decide)

/-- C10: a job description in which no line is classified as a section
header yields empty requirements, responsibilities and qualifications and
an empty company_info; its non-title content lines reach no output field,
and only the raw text and the title (the stripped first non-blank line,
empty when there is none) are populated. -/
theorem C10_no_headers :
    ∀ text : List Char, (∀ l ∈ jdLinesOf text, jdFindHeader l = none) →
      parse_job_description text = ⟨text, titleOf text, [], [], [], []⟩ := by
  intro text h
  by_cases htext : text = []
  · subst htext
    decide
  · unfold jdLinesOf at h
    rw [if_neg htext] at h
    obtain ⟨c, ck, hfold⟩ := jd_foldl_noHeader_untitled ((pyStrip text).splitOn '\n')
      ⟨text, [], [], [], [], []⟩ h rfl
    simp only [parse_job_description, if_neg htext]
    rw [hfold]
    rcases hfind : ((pyStrip text).splitOn '\n').find? (fun l => !(pyStrip l).isEmpty)
      with _ | l <;>
      simp [titleOf, jdLinesOf, if_neg htext, hfind, jdFlush]

theorem C10_witness :
    parse_job_description (str "Senior Engineer\nGreat opportunity\nApply by email")
      = ⟨str "Senior Engineer\nGreat opportunity\nApply by email",
          titleOf (str "Senior Engineer\nGreat opportunity\nApply by email"),
          [], [], [], []⟩ :=
  C10_no_headers (str "Senior Engineer\nGreat opportunity\nApply by email") (by decide)

/-- C9: saving a later experience, education or summary section overwrites
the field, while saving a skills section appends its extracted fragments
to the skills collected so far; consequently a resume made of two
experience sections keeps only the second section's content lines, while a
resume made of two skills sections accumulates the fragments of both in
document order. -/
theorem C9_repeated_sections :
    (∀ (p : ParsedResume) (c : List (List Char)),
      save_section p .experience c = { p with experience := c }) ∧
    (∀ (p : ParsedResume) (c : List (List Char)),
      save_section p .education c = { p with education := c }) ∧
    (∀ (p : ParsedResume) (c : List (List Char)),
      save_section p .summary c = { p with summary := List.intercalate (str " ") c }) ∧
    (∀ (p : ParsedResume) (c : List (List Char)),
      save_section p .skills c = { p with skills := p.skills ++ extractSkills c }) ∧
    (∀ (text h1 c1 h2 c2 : List Char), text ≠ [] →
      (pyStrip text).splitOn '\n' = [h1, c1, h2, c2] →
      (resumeFindHeader h1 = some .experience → resumeFindHeader h2 = some .experience →
        resumeFindHeader c1 = none → resumeFindHeader c2 = none →
        pyStrip c1 ≠ [] → pyStrip c2 ≠ [] →
        (parse_resume text).experience = [pyStrip c2]) ∧
      (resumeFindHeader h1 = some .skills → resumeFindHeader h2 = some .skills →
        resumeFindHeader c1 = none → resumeFindHeader c2 = none →
        pyStrip c1 ≠ [] → pyStrip c2 ≠ [] →
        (parse_resume text).skills
          = extractSkills [pyStrip c1] ++ extractSkills [pyStrip c2])) := by
  refine ⟨fun p c => rfl, fun p c => rfl, fun p c => rfl, save_section_skills, ?_⟩
  intro text h1 c1 h2 c2 htext hlines
  constructor
  · intro hf1 hf2 hc1 hc2 hs1 hs2
    simp only [parse_resume, resumeSegmented, if_neg htext, hlines,
      List.foldl_cons, List.foldl_nil,
      rStep_header hf1, rStep_header hf2,
      rStep_append hc1 hs1, rStep_append hc2 hs2]
    simp [rFlush, save_section]
  · intro hf1 hf2 hc1 hc2 hs1 hs2
    simp only [parse_resume, resumeSegmented, if_neg htext, hlines,
      List.foldl_cons, List.foldl_nil,
      rStep_header hf1, rStep_header hf2,
      rStep_append hc1 hs1, rStep_append hc2 hs2]
    simp [rFlush, save_section_skills]

theorem C9_witness :
    (parse_resume (str "Experience\nbuilt dosing systems\nWork Experience\nled a team")).experience
      = [pyStrip (str "led a team")] :=
  ((C9_repeated_sections.2.2.2.2
      (str "Experience\nbuilt dosing systems\nWork Experience\nled a team")
      (str "Experience") (str "built dosing systems") (str "Work Experience")
      (str "led a team") (by decide) (by decide)).1
    (by decide) (by decide) (by decide) (by decide) (by decide) (by decide))

example : (parse_resume (str "Skills:\nPython, SQL\nExperience\nled teams")).skills
    = [str "Python", str "SQL"] := by decide
example : (parse_resume (str "Skills:\nPython, SQL\nExperience\nled teams")).experience
    = [str "led teams"] := by decide
example : (parse_resume (str "just some text")).summary = str "just some text" := by decide
example : is_section_header (str "** Skills **") skill_headers = true := by decide
example : is_section_header (str "Skills and Experience") exp_headers = true := by decide
example : resumeFindHeader (str "Skills and Experience") = some .skills := by decide
example : (parse_job_description (str "Senior CRA\nRequirements\nGCP knowledge")).title
    = str "Senior CRA" := by decide
example : (parse_job_description (str "Senior CRA\nRequirements\nGCP knowledge")).requirements
    = [str "GCP knowledge"] := by decide
example : (parse_job_description (str "Requirements\nGCP knowledge")).title = [] := by decide
example :
    generate_personalized_questions
      (some ⟨[], [str "python"], [], [], []⟩)
      (some ⟨[], [], [str "Python experience required", str "Go experience required"],
        [], [], []⟩)
    = some [reqQuestionMatched (str "Python experience required"),
            reqQuestionUnmatched (str "Go experience required")] := by decide
example : generate_personalized_questions none none = none := by decide
example : confirmUpdate "random_entry" = ("random_entry", "complete") := by decide
example : confirmUpdate "identify_principle" = ("create_anchors", "create_anchors") := by decide
example : confirmUpdate "garbage" = ("create_anchors", "create_anchors") := by decide
